import Mathlib

/-!
Verification of the `aws-auth-payload` crate's request-signing and
artifact-construction logic (`src/client.rs`).

The crate builds AWS STS `GetCallerIdentity` authentication artifacts in two
shapes: an inline signed POST payload (`AwsAuthIamPayload::new`) and a
pre-signed GET URL (`presigned_url`).  Both delegate the SigV4 signing steps
to `rusoto_core::signature::SignedRequest`; the embedding below models that
dependency's behaviour (hostname construction, header bookkeeping, canonical
query strings, SigV4 HMAC-SHA256 signing) together with the crate's own code.

Strings are modelled at the Unicode-scalar level; percent/byte-level
operations treat a character as the byte of its code point, which coincides
with the Rust byte-level behaviour for ASCII data.  Theorems that quantify
over caller-supplied strings therefore carry ASCII side conditions where the
byte-level behaviour matters.
-/

/-- Bytes of a string, one byte per character (faithful for ASCII data). -/
def strBytes (s : String) : List Nat := s.data.map Char.toNat

/-- Every character of `s` is ASCII. -/
def asciiStr (s : String) : Bool := s.data.all (fun c => c.toNat < 128)

/-- Truncation to a 32-bit word. -/
def w32 (n : Nat) : Nat := n % 4294967296

/-- 32-bit right rotation. -/
def rotr32 (n k : Nat) : Nat := w32 ((n >>> k) ||| (n <<< (32 - k)))

/-- SHA-256 Σ0. -/
def bigSigma0 (x : Nat) : Nat := rotr32 x 2 ^^^ rotr32 x 13 ^^^ rotr32 x 22

/-- SHA-256 Σ1. -/
def bigSigma1 (x : Nat) : Nat := rotr32 x 6 ^^^ rotr32 x 11 ^^^ rotr32 x 25

/-- SHA-256 σ0. -/
def smallSigma0 (x : Nat) : Nat := rotr32 x 7 ^^^ rotr32 x 18 ^^^ (x >>> 3)

/-- SHA-256 σ1. -/
def smallSigma1 (x : Nat) : Nat := rotr32 x 17 ^^^ rotr32 x 19 ^^^ (x >>> 10)

/-- SHA-256 choice function. -/
def chFn (x y z : Nat) : Nat := (x &&& y) ^^^ ((x ^^^ 4294967295) &&& z)

/-- SHA-256 majority function. -/
def majFn (x y z : Nat) : Nat := (x &&& y) ^^^ (x &&& z) ^^^ (y &&& z)

/-- The 64 SHA-256 round constants (FIPS 180-4, in decimal). -/
def K256 : List Nat :=
  [1116352408, 1899447441, 3049323471, 3921009573,
   961987163, 1508970993, 2453635748, 2870763221,
   3624381080, 310598401, 607225278, 1426881987,
   1925078388, 2162078206, 2614888103, 3248222580,
   3835390401, 4022224774, 264347078, 604807628,
   770255983, 1249150122, 1555081692, 1996064986,
   2554220882, 2821834349, 2952996808, 3210313671,
   3336571891, 3584528711, 113926993, 338241895,
   666307205, 773529912, 1294757372, 1396182291,
   1695183700, 1986661051, 2177026350, 2456956037,
   2730485921, 2820302411, 3259730800, 3345764771,
   3516065817, 3600352804, 4094571909, 275423344,
   430227734, 506948616, 659060556, 883997877,
   958139571, 1322822218, 1537002063, 1747873779,
   1955562222, 2024104815, 2227730452, 2361852424,
   2428436474, 2756734187, 3204031479, 3329325298]

/-- Working state of the SHA-256 compression function. -/
structure H8 where
  a : Nat
  b : Nat
  c : Nat
  d : Nat
  e : Nat
  f : Nat
  g : Nat
  h : Nat

/-- SHA-256 initial state (FIPS 180-4, in decimal). -/
def shaInit : H8 :=
  { a := 1779033703, b := 3144134277,
    c := 1013904242, d := 2773480762,
    e := 1359893119, f := 2600822924,
    g := 528734635, h := 1541459225 }

/-- The first 16 words (big-endian) of a 64-byte block. -/
def sched16 (block : List Nat) : List Nat :=
  (List.range 16).map fun i =>
    block.getD (4 * i) 0 * 16777216 + block.getD (4 * i + 1) 0 * 65536 +
      block.getD (4 * i + 2) 0 * 256 + block.getD (4 * i + 3) 0

/-- Extend the message schedule by `n` further words. -/
def extendSched : Nat → List Nat → List Nat
  | 0, ws => ws
  | n + 1, ws =>
    let t := ws.length
    extendSched n (ws ++ [w32 (smallSigma1 (ws.getD (t - 2) 0) + ws.getD (t - 7) 0 +
      smallSigma0 (ws.getD (t - 15) 0) + ws.getD (t - 16) 0)])

/-- The full 64-word SHA-256 message schedule of a block. -/
def schedule (block : List Nat) : List Nat := extendSched 48 (sched16 block)

/-- One SHA-256 round. -/
def shaRound (s : H8) (k w : Nat) : H8 :=
  let t1 := w32 (s.h + bigSigma1 s.e + chFn s.e s.f s.g + k + w)
  let t2 := w32 (bigSigma0 s.a + majFn s.a s.b s.c)
  { a := w32 (t1 + t2), b := s.a, c := s.b, d := s.c,
    e := w32 (s.d + t1), f := s.e, g := s.f, h := s.g }

/-- SHA-256 compression of one 64-byte block. -/
def compressBlock (s0 : H8) (block : List Nat) : H8 :=
  let s := (List.zip K256 (schedule block)).foldl (fun s kw => shaRound s kw.1 kw.2) s0
  { a := w32 (s0.a + s.a), b := w32 (s0.b + s.b), c := w32 (s0.c + s.c), d := w32 (s0.d + s.d),
    e := w32 (s0.e + s.e), f := w32 (s0.f + s.f), g := w32 (s0.g + s.g), h := w32 (s0.h + s.h) }

/-- Number of zero bytes in SHA-256 padding for a message of length `len`. -/
def padZeros (len : Nat) : Nat := (119 - len % 64) % 64

/-- 8-byte big-endian encoding. -/
def lenBE8 (n : Nat) : List Nat :=
  [(n >>> 56) % 256, (n >>> 48) % 256, (n >>> 40) % 256, (n >>> 32) % 256,
   (n >>> 24) % 256, (n >>> 16) % 256, (n >>> 8) % 256, n % 256]

/-- SHA-256 message padding. -/
def shaPad (m : List Nat) : List Nat :=
  m ++ 128 :: List.replicate (padZeros m.length) 0 ++ lenBE8 (8 * m.length)

/-- Split a byte list into 64-byte blocks. -/
def toBlocks : List Nat → List (List Nat)
  | [] => []
  | a :: as => ((a :: as).take 64) :: toBlocks (as.drop 63)
termination_by l => l.length
decreasing_by
  simp [List.length_drop]
  omega

/-- Big-endian bytes of a 32-bit word. -/
def w32bytes (n : Nat) : List Nat := [(n >>> 24) % 256, (n >>> 16) % 256, (n >>> 8) % 256, n % 256]

/-- SHA-256 of a byte list. -/
def sha256 (m : List Nat) : List Nat :=
  let s := (toBlocks (shaPad m)).foldl compressBlock shaInit
  w32bytes s.a ++ w32bytes s.b ++ w32bytes s.c ++ w32bytes s.d ++
    w32bytes s.e ++ w32bytes s.f ++ w32bytes s.g ++ w32bytes s.h

theorem sha256_length (m : List Nat) : (sha256 m).length = 32 := by
  simp [sha256, w32bytes]

/-- HMAC-SHA256 keyed hash. -/
def hmacSha256 (key msg : List Nat) : List Nat :=
  let k0 := if key.length > 64 then sha256 key else key
  let kp := k0 ++ List.replicate (64 - k0.length) 0
  sha256 ((kp.map (fun b => b ^^^ 92)) ++ sha256 ((kp.map (fun b => b ^^^ 54)) ++ msg))

theorem hmacSha256_length (key msg : List Nat) : (hmacSha256 key msg).length = 32 :=
  sha256_length _

/-- Lowercase hexadecimal digits. -/
def hexLower : List Char := ("0123456789abcdef").data

/-- Two lowercase hex characters of a byte. -/
def hexByte (b : Nat) : List Char := [hexLower.getD (b / 16) '0', hexLower.getD (b % 16) '0']

/-- Lowercase hex encoding of a byte list (as produced by `hex::encode`). -/
def hexStr (bs : List Nat) : String := String.mk ((bs.map hexByte).flatten)

theorem hexStr_data (bs : List Nat) : (hexStr bs).data = (bs.map hexByte).flatten := rfl

/-- The standard base64 alphabet. -/
def b64Alphabet : List Char :=
  ("ABCDEFGHIJKLMNOPQRSTUVWXYZabcdefghijklmnopqrstuvwxyz0123456789+/").data

/-- One base64 digit. -/
def b64Digit (n : Nat) : Char := b64Alphabet.getD (n % 64) 'A'

/-- Standard padded base64 encoding of a byte list (as produced by `base64::encode`). -/
def base64Encode : List Nat → String
  | [] => ""
  | [b1] =>
    String.mk [b64Digit (b1 / 4), b64Digit (b1 % 4 * 16), '=', '=']
  | [b1, b2] =>
    String.mk [b64Digit (b1 / 4), b64Digit (b1 % 4 * 16 + b2 / 16), b64Digit (b2 % 16 * 4), '=']
  | b1 :: b2 :: b3 :: rest =>
    String.mk [b64Digit (b1 / 4), b64Digit (b1 % 4 * 16 + b2 / 16),
      b64Digit (b2 % 16 * 4 + b3 / 64), b64Digit (b3 % 64)] ++ base64Encode rest

/-- Value of one base64 digit. -/
def b64Val (c : Char) : Nat := (b64Alphabet.indexOf c) % 64

/-- Base64 decoding (total; ill-formed input yields unspecified bytes). -/
def base64DecodeL : List Char → List Nat
  | c1 :: c2 :: '=' :: '=' :: [] => [b64Val c1 * 4 + b64Val c2 / 16]
  | c1 :: c2 :: c3 :: '=' :: [] =>
    [b64Val c1 * 4 + b64Val c2 / 16, b64Val c2 % 16 * 16 + b64Val c3 / 4]
  | c1 :: c2 :: c3 :: c4 :: rest =>
    (b64Val c1 * 4 + b64Val c2 / 16) :: (b64Val c2 % 16 * 16 + b64Val c3 / 4) ::
      (b64Val c3 % 4 * 64 + b64Val c4) :: base64DecodeL rest
  | _ => []

/-- Base64 decoding of a string. -/
def base64Decode (s : String) : List Nat := base64DecodeL s.data

/-- Strict URI unreserved characters (RFC 3986), as used by rusoto's
`encode_uri_strict` for query parameter names and values. -/
def strictUnreserved (c : Char) : Bool :=
  ('A' ≤ c && c ≤ 'Z') || ('a' ≤ c && c ≤ 'z') || ('0' ≤ c && c ≤ '9') ||
    c = '-' || c = '_' || c = '.' || c = '~'

/-- Uppercase hexadecimal digits, used by percent encoding. -/
def hexUpper : List Char := ("0123456789ABCDEF").data

/-- Percent-encode a single character (its code point taken as a byte;
faithful for ASCII input, which is all the crate produces here). -/
def encChar (c : Char) : List Char :=
  if strictUnreserved c then [c]
  else ['%', hexUpper.getD (c.toNat / 16) '0', hexUpper.getD (c.toNat % 16) '0']

/-- Strict percent encoding of a character list. -/
def percEncodeL (s : List Char) : List Char := (s.map encChar).flatten

/-- Model of rusoto's `encode_uri_strict`. -/
def encodeUriStrict (s : String) : String := String.mk (percEncodeL s.data)

/-- Characters kept verbatim by rusoto's path encoding (unreserved plus `/`). -/
def pathUnreserved (c : Char) : Bool := strictUnreserved c || c = '/'

/-- Model of rusoto's `encode_uri_path` (percent encoding that keeps `/`). -/
def encodeUriPath (s : String) : String :=
  String.mk ((s.data.map fun c =>
    if pathUnreserved c then [c]
    else ['%', hexUpper.getD (c.toNat / 16) '0', hexUpper.getD (c.toNat % 16) '0']).flatten)

/-- Value of a hexadecimal digit character, if any. -/
def hexVal (c : Char) : Option Nat :=
  if '0' ≤ c && c ≤ '9' then some (c.toNat - 48)
  else if 'A' ≤ c && c ≤ 'F' then some (c.toNat - 55)
  else if 'a' ≤ c && c ≤ 'f' then some (c.toNat - 87)
  else none

/-- Form-style percent decoding to bytes, as performed by `url::Url::query_pairs`
(`%XX` escapes decoded, `+` decoded to a space). -/
def percDecodeL : List Char → List Nat
  | [] => []
  | '%' :: h :: l :: rest2 =>
    match hexVal h, hexVal l with
    | some hv, some lv => (16 * hv + lv) :: percDecodeL rest2
    | _, _ => 37 :: percDecodeL (h :: l :: rest2)
  | c :: rest =>
    if c = '+' then 32 :: percDecodeL rest
    else c.toNat :: percDecodeL rest

/-- Split a character list at every `&`, as a query-pair parser does. -/
def splitAmp : List Char → List (List Char)
  | [] => [[]]
  | c :: rest =>
    if c = '&' then [] :: splitAmp rest
    else
      match splitAmp rest with
      | [] => [[c]]
      | p :: ps => (c :: p) :: ps

/-- Split a query-pair segment at its first `=` into name and value. -/
def splitEq : List Char → List Char × List Char
  | [] => ([], [])
  | c :: rest =>
    if c = '=' then ([], rest)
    else
      let kv := splitEq rest
      (c :: kv.1, kv.2)

/-- Parsed, percent-decoded query pairs of a query string, at the byte level
(the model of `url::Url::query_pairs`). -/
def queryPairsL (q : List Char) : List (List Nat × List Nat) :=
  (splitAmp q).map fun p => (percDecodeL (splitEq p).1, percDecodeL (splitEq p).2)

/-- Parsed query pairs of a query string. -/
def queryPairs (q : String) : List (List Nat × List Nat) := queryPairsL q.data

/-- Lookup of a query parameter among parsed pairs. -/
def qlookup (k : List Nat) : List (List Nat × List Nat) → Option (List Nat)
  | [] => none
  | p :: ps => if p.1 = k then some p.2 else qlookup k ps

/-- The characters after the first occurrence of `c`. -/
def afterChar (c : Char) : List Char → List Char
  | [] => []
  | x :: xs => if x = c then xs else afterChar c xs

/-- The query-string part of a URL (everything after the first `?`). -/
def urlQueryStr (u : String) : List Char := afterChar '?' u.data

/-- Drop everything up to and including the first occurrence of `pat`. -/
def afterSeq (pat : List Char) : List Char → List Char
  | [] => []
  | x :: xs => if (x :: xs).take pat.length = pat then (x :: xs).drop pat.length
    else afterSeq pat xs

/-- The host part of a URL: what stands between `://` and the next `/`. -/
def urlHost (u : String) : String :=
  String.mk ((afterSeq [':', '/', '/'] u.data).takeWhile (fun c => c ≠ '/'))

/-- AWS credential triple, as in `rusoto_core::credential::AwsCredentials`
(the expiry field, unused by signing, is omitted). -/
structure AwsCredentials where
  aws_access_key_id : String
  aws_secret_access_key : String
  token : Option String

/-- An AWS region, modelled by its name (`rusoto_core::Region::name`); the
`Custom` variant, unused by this crate, is not modelled. -/
structure Region where
  name : String

/-- Modelled from the dependency `rusoto_core::Region`'s documented `Default`
impl: the default region is `us-east-1` (the `AWS_DEFAULT_REGION` /
`AWS_REGION` environment overrides, being I/O, are outside the model; any
such override is itself a concrete region, never a global marker). -/
def Region.default : Region := { name := "us-east-1" }

/-- Modelled from `rusoto_core::signature::build_hostname`, in the arm for
region-based services — which covers `sts` in the rusoto version this crate
pins, as witnessed by the crate's own tests expecting
`sts.us-east-1.amazonaws.com`. -/
def build_hostname (service : String) (region : Region) : String :=
  if region.name = "cn-north-1" || region.name = "cn-northwest-1" then
    service ++ "." ++ region.name ++ ".amazonaws.com.cn"
  else
    service ++ "." ++ region.name ++ ".amazonaws.com"

/-- Rust `str::to_lowercase` as applied to header names (character-wise;
coincides with the Rust behaviour on the ASCII header names used here). -/
def asciiLowercase (s : String) : String := String.mk (s.data.map Char.toLower)

/-- Lexicographic comparison of character lists by code point — the order of
Rust's `Ord for String` (UTF-8 byte order coincides with code-point order). -/
def charsLt : List Char → List Char → Bool
  | [], [] => false
  | [], _ :: _ => true
  | _ :: _, [] => false
  | a :: as, b :: bs =>
    if a.toNat < b.toNat then true
    else if b.toNat < a.toNat then false
    else charsLt as bs

/-- String comparison under which `BTreeMap` keys are sorted. -/
def strLt (a b : String) : Bool := charsLt a.data b.data

/-- Insertion into a sorted association list: the model of
`BTreeMap::insert` as used for `Params` (`ServiceParams::put`; values are
always present, so the `Option` in `rusoto_core::param::Params` is elided). -/
def paramPut : List (String × String) → String → String → List (String × String)
  | [], k, v => [(k, v)]
  | p :: ps, k, v =>
    if k = p.1 then (k, v) :: ps
    else if strLt k p.1 then (k, v) :: p :: ps
    else p :: paramPut ps k v

/-- Push a header value: the model of rusoto `SignedRequest::add_header`'s
`BTreeMap<String, Vec<Vec<u8>>>` entry update (key already lower-cased). -/
def headerAdd : List (String × List (List Nat)) → String → List Nat →
    List (String × List (List Nat))
  | [], k, v => [(k, [v])]
  | p :: ps, k, v =>
    if k = p.1 then (p.1, p.2 ++ [v]) :: ps
    else if strLt k p.1 then (k, [v]) :: p :: ps
    else p :: headerAdd ps k v

/-- Drop a header entry: the model of rusoto `SignedRequest::remove_header`. -/
def headerRemove (hs : List (String × List (List Nat))) (k : String) :
    List (String × List (List Nat)) :=
  hs.filter fun p => p.1 ≠ k

/-- The model of `rusoto_core::signature::SignedRequest` (the fields cached
only for later reads — scheme, hostname, canonical strings — are recomputed
on demand instead of stored). -/
structure SignedRequest where
  method : String
  service : String
  region : Region
  path : String
  headers : List (String × List (List Nat))
  params : List (String × String)
  payload : Option (List Nat)

/-- `SignedRequest::new`. -/
def SignedRequest.new (method service : String) (region : Region) (path : String) :
    SignedRequest :=
  { method := method, service := service, region := region, path := path,
    headers := [], params := [], payload := none }

/-- `SignedRequest::add_header` (lower-cases the name, stores value bytes). -/
def SignedRequest.addHeader (r : SignedRequest) (k v : String) : SignedRequest :=
  { r with headers := headerAdd r.headers (asciiLowercase k) (strBytes v) }

/-- `remove_header` followed by `add_header`, the idiom rusoto's signing code
uses for the headers it owns. -/
def SignedRequest.replaceHeader (r : SignedRequest) (k v : String) : SignedRequest :=
  { r with headers := headerAdd (headerRemove r.headers (asciiLowercase k)) (asciiLowercase k) (strBytes v) }

/-- `SignedRequest::set_payload` with a buffer. -/
def SignedRequest.setPayload (r : SignedRequest) (buf : List Nat) : SignedRequest :=
  { r with payload := some buf }

/-- `SignedRequest::set_content_type` (surfaces as a `content-type` header of
the signed request). -/
def SignedRequest.setContentType (r : SignedRequest) (ct : String) : SignedRequest :=
  r.addHeader "Content-Type" ct

/-- `SignedRequest::set_params`. -/
def SignedRequest.setParams (r : SignedRequest) (ps : List (String × String)) :
    SignedRequest :=
  { r with params := ps }

/-- `SignedRequest::scheme` (no custom endpoint is ever set by this crate). -/
def SignedRequest.scheme (_ : SignedRequest) : String := "https"

/-- `SignedRequest::hostname`. -/
def SignedRequest.hostname (r : SignedRequest) : String := build_hostname r.service r.region

/-- `SignedRequest::canonical_path`. -/
def SignedRequest.canonicalPath (r : SignedRequest) : String :=
  encodeUriPath (if r.path.isEmpty then "/" else r.path)

/-- rusoto `signature::skipped_headers`: headers excluded from signing. -/
def skippedHeader (h : String) : Bool :=
  h = "authorization" || h = "content-length" || h = "content-type" || h = "user-agent"

/-- rusoto `signature::signed_headers`: semicolon-joined, already-sorted,
lower-cased names of the headers that participate in the signature. -/
def signedHeadersStr (hs : List (String × List (List Nat))) : String :=
  String.intercalate ";" ((hs.filter fun p => !skippedHeader p.1).map fun p => p.1)

/-- Collapse of double spaces, the model of Rust `str::replace("  ", " ")`. -/
def collapseDouble : List Char → List Char
  | ' ' :: ' ' :: rest => ' ' :: collapseDouble rest
  | c :: rest => c :: collapseDouble rest
  | [] => []

/-- rusoto `signature::canonical_values` (header bytes read back as text —
`str::from_utf8` — then trimmed and comma-joined unless quoted). -/
def canonicalValues (vs : List (List Nat)) : String :=
  String.intercalate "," (vs.map fun v =>
    let s : List Char := v.map Char.ofNat
    if s.take 1 = ['"'] then String.mk s else (String.mk (collapseDouble s)).trim)

/-- rusoto `signature::canonical_headers`. -/
def canonicalHeaders (hs : List (String × List (List Nat))) : String :=
  String.join (((hs.filter fun p => !skippedHeader p.1).map
    fun p => p.1 ++ ":" ++ canonicalValues p.2 ++ "\x0a"))

/-- Join query-pair segments with `&` separators, as rusoto's
`build_canonical_query_string` loop does. -/
def joinAmp : List (List Char) → List Char
  | [] => []
  | p :: ps => p ++ (ps.map (fun q => '&' :: q)).flatten

/-- rusoto `signature::build_canonical_query_string` over the sorted
parameter map: strictly percent-encoded `key=value` segments joined by `&`. -/
def buildCanonicalQueryString (ps : List (String × String)) : String :=
  String.mk (joinAmp (ps.map fun p => percEncodeL p.1.data ++ '=' :: percEncodeL p.2.data))

/-- The signing timestamp, modelled by the two formatted forms rusoto takes
from `Utc::now()`: `%Y%m%d` and `%H%M%S`. -/
structure Tstamp where
  ymd : String
  hms : String

/-- The `%Y%m%dT%H%M%SZ` ISO-basic form of the timestamp. -/
def Tstamp.basicFormat (t : Tstamp) : String := t.ymd ++ "T" ++ t.hms ++ "Z"

/-- Hex digest of the empty payload (`rusoto_core`'s `EMPTY_SHA256_HASH`). -/
def emptySha256Hex : String := hexStr (sha256 [])

/-- rusoto `signature::sign_string`'s key derivation chain: four HMAC steps
mixing in date, region, service and the fixed terminator. -/
def signingKey (secret ymd regionName service : String) : List Nat :=
  hmacSha256
    (hmacSha256
      (hmacSha256
        (hmacSha256 (strBytes ("AWS4" ++ secret)) (strBytes ymd))
        (strBytes regionName))
      (strBytes service))
    (strBytes "aws4_request")

/-- The credential scope string `date/region/service/aws4_request`. -/
def credScope (t : Tstamp) (regionName service : String) : String :=
  t.ymd ++ "/" ++ regionName ++ "/" ++ service ++ "/aws4_request"

/-- rusoto `signature::string_to_sign`. -/
def stringToSign (t : Tstamp) (hashedRequest scope : String) : String :=
  "AWS4-HMAC-SHA256" ++ "\x0a" ++ t.basicFormat ++ "\x0a" ++ scope ++ "\x0a" ++ hashedRequest

/-- `SignedRequest::sign`: header-style SigV4 signing.  Modelled from the
spec's Signature Engine contract and rusoto's implementation: fixes the
`x-amz-date`, optional `x-amz-security-token`, `x-amz-content-sha256` and
`host` headers, canonicalizes, derives the signing key, and adds the
lower-cased `authorization` header.  The ambient `Utc::now()` read is an
explicit `now` argument. -/
def SignedRequest.sign (r0 : SignedRequest) (creds : AwsCredentials) (now : Tstamp) :
    SignedRequest :=
  let r := r0.replaceHeader "x-amz-date" now.basicFormat
  let r := match creds.token with
    | some tok => r.replaceHeader "x-amz-security-token" tok
    | none => r
  let cqs := buildCanonicalQueryString r.params
  let digest := match r.payload with
    | none => emptySha256Hex
    | some buf => hexStr (sha256 buf)
  let r := r.replaceHeader "x-amz-content-sha256" digest
  let r := r.replaceHeader "host" r.hostname
  let signedHdrs := signedHeadersStr r.headers
  let canonicalRequest := r.method ++ "\x0a" ++ r.canonicalPath ++ "\x0a" ++ cqs ++ "\x0a" ++
    canonicalHeaders r.headers ++ "\x0a" ++ signedHdrs ++ "\x0a" ++ digest
  let scope := credScope now r.region.name r.service
  let toSign := stringToSign now (hexStr (sha256 (strBytes canonicalRequest))) scope
  let signature := hexStr (hmacSha256
    (signingKey creds.aws_secret_access_key now.ymd r.region.name r.service)
    (strBytes toSign))
  let auth := "AWS4-HMAC-SHA256 Credential=" ++ creds.aws_access_key_id ++ "/" ++ scope ++
    ", SignedHeaders=" ++ signedHdrs ++ ", Signature=" ++ signature
  r.replaceHeader "authorization" auth

/-- `SignedRequest::generate_presigned_url` (with payload signing on, as the
crate calls it): fixes the `host` header, injects the SigV4 query parameters,
canonicalizes, signs, and appends `X-Amz-Signature` to the finished query
string.  The ambient `Utc::now()` read is an explicit `now` argument;
`expiresSecs` is `Duration::as_secs` of the caller's expiry. -/
def SignedRequest.generatePresignedUrl (r0 : SignedRequest) (creds : AwsCredentials)
    (expiresSecs : Nat) (now : Tstamp) : String :=
  let hostname := r0.hostname
  let r := r0.replaceHeader "host" hostname
  let scope := credScope now r.region.name r.service
  let ps := match creds.token with
    | some tok => paramPut r.params "X-Amz-Security-Token" tok
    | none => r.params
  let ps := paramPut ps "X-Amz-Algorithm" "AWS4-HMAC-SHA256"
  let ps := paramPut ps "X-Amz-Credential" (creds.aws_access_key_id ++ "/" ++ scope)
  let ps := paramPut ps "X-Amz-Expires" (toString expiresSecs)
  let signedHdrs := signedHeadersStr r.headers
  let ps := paramPut ps "X-Amz-SignedHeaders" signedHdrs
  let ps := paramPut ps "X-Amz-Date" now.basicFormat
  let cqs := buildCanonicalQueryString ps
  let payloadHash := match r.payload with
    | none => emptySha256Hex
    | some buf => hexStr (sha256 buf)
  let canonicalRequest := r.method ++ "\x0a" ++ r.canonicalPath ++ "\x0a" ++ cqs ++ "\x0a" ++
    canonicalHeaders r.headers ++ "\x0a" ++ signedHdrs ++ "\x0a" ++ payloadHash
  let toSign := stringToSign now (hexStr (sha256 (strBytes canonicalRequest))) scope
  let signature := hexStr (hmacSha256
    (signingKey creds.aws_secret_access_key now.ymd r.region.name r.service)
    (strBytes toSign))
  r.scheme ++ "://" ++ hostname ++ r.canonicalPath ++ "?" ++ cqs ++
    "&X-Amz-Signature=" ++ signature

/-- Form-urlencode one character (`url::form_urlencoded`, used by
`serde_urlencoded`): space becomes `+`; alphanumerics and `*-._` stay. -/
def formEncChar (c : Char) : List Char :=
  if c = ' ' then ['+']
  else if ('A' ≤ c && c ≤ 'Z') || ('a' ≤ c && c ≤ 'z') || ('0' ≤ c && c ≤ '9') ||
      c = '*' || c = '-' || c = '.' || c = '_' then [c]
  else ['%', hexUpper.getD (c.toNat / 16) '0', hexUpper.getD (c.toNat % 16) '0']

/-- Form-urlencoding of a string. -/
def formEncode (s : String) : String := String.mk ((s.data.map formEncChar).flatten)

/-- `serde_urlencoded::to_string` over the parameter map: the fallible
serialization whose result the crate unwraps (`client.rs:66`).  For a map of
string parameters it always succeeds. -/
def serdeUrlencodedToString (ps : List (String × String)) : Option String :=
  some (String.intercalate "&" (ps.map fun p => formEncode p.1 ++ "=" ++ formEncode p.2))

/-- The payload structure `AwsAuthIamPayload` (`client.rs:21-30`); the
`HashMap<String, Vec<String>>` of headers is modelled as a key-sorted
association list (the map is only ever queried by key). -/
structure AwsAuthIamPayload where
  iam_http_request_method : String
  iam_request_url : String
  iam_request_body : String
  iam_request_headers : List (String × List String)

/-- `String::from_utf8_unchecked` as used at `client.rs:95`: the bytes are
turned into text with no validation whatsoever (each byte becomes the
character of its code point; invalid UTF-8 passes straight through). -/
def fromUtf8Unchecked (bs : List Nat) : String := String.mk (bs.map Char.ofNat)

/-- The header conversion of `client.rs:88-100`: every header's byte values
are mapped back to strings through the unchecked conversion. -/
def headersToStrings (hs : List (String × List (List Nat))) : List (String × List String) :=
  hs.map fun p => (p.1, p.2.map fromUtf8Unchecked)

/-- The fixed parameter map built at `client.rs:61-64` (also
`client.rs:145-147`): exactly `Action=GetCallerIdentity` and
`Version=2011-06-15`. -/
def actionParams : List (String × String) :=
  paramPut (paramPut [] "Action" "GetCallerIdentity") "Version" "2011-06-15"

/-- `AwsAuthIamPayload::new` (`client.rs:41-112`): build the POST
`GetCallerIdentity` request, sign it, and serialize URL, body and headers.
`region = none` takes `Region::default()` via `unwrap_or_default`
(`client.rs:50-53`). -/
def awsAuthIamPayloadNew (credentials : AwsCredentials) (region : Option Region)
    (additional_headers : List (String × String)) (now : Tstamp) : AwsAuthIamPayload :=
  let regionV := region.getD Region.default
  let request := SignedRequest.new "POST" "sts" regionV "/"
  let body := (serdeUrlencodedToString actionParams).getD ""
  let request := request.setPayload (strBytes body)
  let request := request.setContentType "application/x-www-form-urlencoded"
  let request := additional_headers.foldl (fun r p => r.addHeader p.1 p.2) request
  let request := request.sign credentials now
  let uri := request.scheme ++ "://" ++ request.hostname ++ request.canonicalPath
  let payload := match request.payload with
    | some buffer => base64Encode buffer
    | none => ""
  { iam_http_request_method := "POST",
    iam_request_url := base64Encode (strBytes uri),
    iam_request_body := payload,
    iam_request_headers := headersToStrings request.headers }

/-- `AwsAuthIamPayload::new` with its two partial operations made explicit:
the `unwrap` of the urlencoded serialization (`client.rs:66`) and the
payload-extraction `match` whose `_` arm is `unreachable!`
(`client.rs:83-86`).  A `none` result models a panic. -/
def awsAuthIamPayloadNewChecked (credentials : AwsCredentials) (region : Option Region)
    (additional_headers : List (String × String)) (now : Tstamp) :
    Option AwsAuthIamPayload :=
  let regionV := region.getD Region.default
  let request := SignedRequest.new "POST" "sts" regionV "/"
  (serdeUrlencodedToString actionParams).bind fun body =>
    let request := request.setPayload (strBytes body)
    let request := request.setContentType "application/x-www-form-urlencoded"
    let request := additional_headers.foldl (fun r p => r.addHeader p.1 p.2) request
    let request := request.sign credentials now
    let uri := request.scheme ++ "://" ++ request.hostname ++ request.canonicalPath
    (match request.payload with
      | some buffer => some (base64Encode buffer)
      | none => none).bind fun payload =>
      some { iam_http_request_method := "POST",
             iam_request_url := base64Encode (strBytes uri),
             iam_request_body := payload,
             iam_request_headers := headersToStrings request.headers }

/-- `presigned_url` (`client.rs:124-155`): build the GET `GetCallerIdentity`
request and produce a pre-signed URL; a missing `expires_in` defaults to the
crate's `DEFAULT_EXPIRES` of 60 seconds (`client.rs:133-135`, `client.rs:154`). -/
def presigned_url (credentials : AwsCredentials) (region : Option Region)
    (additional_headers : List (String × String)) (expires_in : Option Nat)
    (now : Tstamp) : String :=
  let regionV := region.getD Region.default
  let request := SignedRequest.new "GET" "sts" regionV "/"
  let request := request.setParams actionParams
  let request := additional_headers.foldl (fun r p => r.addHeader p.1 p.2) request
  request.generatePresignedUrl credentials (expires_in.getD 60) now

/-- Lookup of a header entry by name in the payload's header map. -/
def hlookup (k : String) : List (String × List String) → Option (List String)
  | [] => none
  | p :: ps => if p.1 = k then some p.2 else hlookup k ps

theorem strData_append (a b : String) : (a ++ b).data = a.data ++ b.data := by
  cases a
  cases b
  rfl

theorem splitAmp_sep (a b : List Char) (h : '&' ∉ a) :
    splitAmp (a ++ '&' :: b) = a :: splitAmp b := by
  induction a with
  | nil => simp [splitAmp]
  | cons c a ih =>
    have hc : c ≠ '&' := fun hc => h (hc ▸ List.mem_cons_self c a)
    have ha : '&' ∉ a := fun hm => h (List.mem_cons_of_mem c hm)
    show splitAmp (c :: (a ++ '&' :: b)) = (c :: a) :: splitAmp b
    simp only [splitAmp]
    rw [if_neg hc, ih ha]

theorem splitAmp_no_sep (a : List Char) (h : '&' ∉ a) : splitAmp a = [a] := by
  induction a with
  | nil => rfl
  | cons c a ih =>
    have hc : c ≠ '&' := fun hc => h (hc ▸ List.mem_cons_self c a)
    have ha : '&' ∉ a := fun hm => h (List.mem_cons_of_mem c hm)
    simp only [splitAmp, if_neg hc, ih ha]

theorem splitAmp_joinAmp (parts : List (List Char)) (hne : parts ≠ [])
    (h : ∀ p ∈ parts, '&' ∉ p) : splitAmp (joinAmp parts) = parts := by
  induction parts with
  | nil => exact absurd rfl hne
  | cons p ps ih =>
    cases ps with
    | nil =>
      simp only [joinAmp, List.map_nil, List.flatten_nil, List.append_nil]
      exact splitAmp_no_sep p (h p (List.mem_cons_self p []))
    | cons q qs =>
      have hjoin : joinAmp (p :: q :: qs) = p ++ '&' :: joinAmp (q :: qs) := by
        simp [joinAmp]
      rw [hjoin, splitAmp_sep p _ (h p (List.mem_cons_self p _))]
      rw [ih (by simp) (fun r hr => h r (List.mem_cons_of_mem p hr))]

theorem splitEq_append (k v : List Char) (h : '=' ∉ k) : splitEq (k ++ '=' :: v) = (k, v) := by
  induction k with
  | nil => simp [splitEq]
  | cons c k ih =>
    have hc : c ≠ '=' := fun hc => h (hc ▸ List.mem_cons_self c k)
    have hk : '=' ∉ k := fun hm => h (List.mem_cons_of_mem c hm)
    show splitEq (c :: (k ++ '=' :: v)) = (c :: k, v)
    simp only [splitEq]
    rw [if_neg hc, ih hk]

theorem getD_mem_or {α : Type} : ∀ (l : List α) (i : Nat) (d : α),
    l.getD i d ∈ l ∨ l.getD i d = d
  | [], _, _ => Or.inr rfl
  | a :: l, 0, _ => Or.inl (List.mem_cons_self a l)
  | a :: l, i + 1, d =>
    match getD_mem_or l i d with
    | Or.inl h => Or.inl (List.mem_cons_of_mem a h)
    | Or.inr h => Or.inr h

theorem hexUpper_safe : ∀ c ∈ hexUpper,
    c ≠ '&' ∧ c ≠ '=' ∧ c ≠ '?' ∧ c ≠ '+' ∧ c ≠ '%' := by decide

theorem hexLower_safe : ∀ c ∈ hexLower,
    c ≠ '&' ∧ c ≠ '=' ∧ c ≠ '?' ∧ c ≠ '+' ∧ c ≠ '%' := by decide

theorem hexUpperD_safe (i : Nat) :
    hexUpper.getD i '0' ≠ '&' ∧ hexUpper.getD i '0' ≠ '=' ∧ hexUpper.getD i '0' ≠ '?' ∧
      hexUpper.getD i '0' ≠ '+' ∧ hexUpper.getD i '0' ≠ '%' := by
  rcases getD_mem_or hexUpper i '0' with h | h
  · exact hexUpper_safe _ h
  · rw [h]
    decide

theorem encChar_safe (c d : Char) (hd : d ∈ encChar c) :
    d ≠ '&' ∧ d ≠ '=' ∧ d ≠ '?' ∧ d ≠ '+' := by
  by_cases h : strictUnreserved c
  · simp only [encChar, if_pos h, List.mem_singleton] at hd
    subst hd
    refine ⟨?_, ?_, ?_, ?_⟩ <;> intro he <;> rw [he] at h <;> exact absurd h (by decide)
  · simp only [encChar, if_neg h, List.mem_cons, List.not_mem_nil, or_false] at hd
    rcases hd with h1 | h1 | h1 <;> subst h1
    · decide
    · exact ⟨(hexUpperD_safe _).1, (hexUpperD_safe _).2.1, (hexUpperD_safe _).2.2.1,
        (hexUpperD_safe _).2.2.2.1⟩
    · exact ⟨(hexUpperD_safe _).1, (hexUpperD_safe _).2.1, (hexUpperD_safe _).2.2.1,
        (hexUpperD_safe _).2.2.2.1⟩

theorem percEncodeL_safe (s : List Char) (d : Char) (hd : d ∈ percEncodeL s) :
    d ≠ '&' ∧ d ≠ '=' ∧ d ≠ '?' ∧ d ≠ '+' := by
  simp only [percEncodeL, List.mem_flatten, List.mem_map] at hd
  obtain ⟨chunk, ⟨c, _, hc⟩, hchunk⟩ := hd
  exact encChar_safe c d (hc ▸ hchunk)

theorem hexStr_chars (bs : List Nat) (d : Char) (hd : d ∈ (hexStr bs).data) :
    d ≠ '&' ∧ d ≠ '=' ∧ d ≠ '?' ∧ d ≠ '+' ∧ d ≠ '%' := by
  simp only [hexStr_data, List.mem_flatten, List.mem_map] at hd
  obtain ⟨chunk, ⟨b, _, hb⟩, hchunk⟩ := hd
  subst hb
  simp only [hexByte, List.mem_cons, List.not_mem_nil, or_false] at hchunk
  rcases hchunk with h1 | h1 <;> subst h1
  · rcases getD_mem_or hexLower (b / 16) '0' with h | h
    · exact hexLower_safe _ h
    · rw [h]
      decide
  · rcases getD_mem_or hexLower (b % 16) '0' with h | h
    · exact hexLower_safe _ h
    · rw [h]
      decide

theorem percDecodeL_cons (c : Char) (rest : List Char) (h1 : c ≠ '%') (h2 : c ≠ '+') :
    percDecodeL (c :: rest) = c.toNat :: percDecodeL rest := by
  rcases rest with _ | ⟨a, _ | ⟨b, r⟩⟩ <;> simp [percDecodeL, h1, h2]

theorem percDecodeL_esc (hc lc : Char) (rest : List Char) (hv lv : Nat)
    (hh : hexVal hc = some hv) (hl : hexVal lc = some lv) :
    percDecodeL ('%' :: hc :: lc :: rest) = (16 * hv + lv) :: percDecodeL rest := by
  simp [percDecodeL, hh, hl]

theorem hexVal_hexUpper : ∀ d < 16, hexVal (hexUpper.getD d '0') = some d := by decide

theorem percDecode_percEncode (l : List Char) (h : ∀ c ∈ l, c.toNat < 128) :
    percDecodeL (percEncodeL l) = l.map Char.toNat := by
  induction l with
  | nil => rfl
  | cons c l ih =>
    have hc : c.toNat < 128 := h c (List.mem_cons_self c l)
    have hl : ∀ d ∈ l, d.toNat < 128 := fun d hd => h d (List.mem_cons_of_mem c hd)
    have henc : percEncodeL (c :: l) = encChar c ++ percEncodeL l := by
      simp [percEncodeL]
    rw [henc]
    by_cases hu : strictUnreserved c
    · simp only [encChar, if_pos hu, List.singleton_append]
      have hp : c ≠ '%' := fun he => by
        rw [he] at hu
        exact absurd hu (by decide)
      have hpl : c ≠ '+' := fun he => by
        rw [he] at hu
        exact absurd hu (by decide)
      rw [percDecodeL_cons c _ hp hpl, ih hl, List.map_cons]
    · simp only [encChar, if_neg hu, List.cons_append, List.nil_append]
      rw [percDecodeL_esc _ _ _ _ _ (hexVal_hexUpper _ (by omega)) (hexVal_hexUpper _ (by omega)),
        ih hl, List.map_cons]
      congr 1
      omega

theorem percDecode_raw (l : List Char) (h : ∀ c ∈ l, c ≠ '%' ∧ c ≠ '+') :
    percDecodeL l = l.map Char.toNat := by
  induction l with
  | nil => rfl
  | cons c l ih =>
    rw [percDecodeL_cons c l (h c (List.mem_cons_self c l)).1 (h c (List.mem_cons_self c l)).2,
      ih (fun d hd => h d (List.mem_cons_of_mem c hd)), List.map_cons]

theorem foldlAddHeader_eq (hs : List (String × String)) (r : SignedRequest) :
    hs.foldl (fun r p => r.addHeader p.1 p.2) r =
      { r with headers := hs.foldl (fun acc p => headerAdd acc (asciiLowercase p.1) (strBytes p.2)) r.headers } := by
  induction hs generalizing r with
  | nil => rfl
  | cons p ps ih =>
    rw [List.foldl_cons, List.foldl_cons, ih]
    rfl

/-- The header map of the pre-signed GET request: caller headers added to the
fresh request, then the `host` header fixed by the signer. -/
def presignedHeaderMap (hs : List (String × String)) (hostname : String) :
    List (String × List (List Nat)) :=
  headerAdd (headerRemove
    (hs.foldl (fun acc p => headerAdd acc (asciiLowercase p.1) (strBytes p.2)) [])
    (asciiLowercase "host")) (asciiLowercase "host") (strBytes hostname)

set_option maxHeartbeats 2000000 in
theorem presigned_url_eq (creds : AwsCredentials) (rOpt : Option Region)
    (hs : List (String × String)) (e : Option Nat) (t : Tstamp) :
    presigned_url creds rOpt hs e t =
      (let regionV := rOpt.getD Region.default
       let hostname := build_hostname "sts" regionV
       let hdrs := presignedHeaderMap hs hostname
       let scope := credScope t regionV.name "sts"
       let shdrs := signedHeadersStr hdrs
       let ps0 := match creds.token with
         | some tok => paramPut actionParams "X-Amz-Security-Token" tok
         | none => actionParams
       let ps := paramPut (paramPut (paramPut (paramPut (paramPut ps0
         "X-Amz-Algorithm" "AWS4-HMAC-SHA256")
         "X-Amz-Credential" (creds.aws_access_key_id ++ "/" ++ scope))
         "X-Amz-Expires" (toString (e.getD 60)))
         "X-Amz-SignedHeaders" shdrs)
         "X-Amz-Date" t.basicFormat
       let cqs := buildCanonicalQueryString ps
       let canonicalRequest := "GET" ++ "\x0a" ++ "/" ++ "\x0a" ++ cqs ++ "\x0a" ++
         canonicalHeaders hdrs ++ "\x0a" ++ shdrs ++ "\x0a" ++ emptySha256Hex
       let toSign := stringToSign t (hexStr (sha256 (strBytes canonicalRequest))) scope
       let signature := hexStr (hmacSha256
         (signingKey creds.aws_secret_access_key t.ymd regionV.name "sts") (strBytes toSign))
       "https" ++ "://" ++ hostname ++ "/" ++ "?" ++ cqs ++ "&X-Amz-Signature=" ++ signature) := by
  simp only [presigned_url, SignedRequest.generatePresignedUrl]
  rw [foldlAddHeader_eq]
  rfl

/-- The header map of the POST request before signing: the `Content-Type`
header fixed by `set_content_type`, then the caller's additional headers. -/
def postHeaderMap (hs : List (String × String)) : List (String × List (List Nat)) :=
  hs.foldl (fun acc p => headerAdd acc (asciiLowercase p.1) (strBytes p.2))
    (headerAdd [] (asciiLowercase "Content-Type") (strBytes "application/x-www-form-urlencoded"))

theorem awsAuthIamPayloadNew_eq (creds : AwsCredentials) (rOpt : Option Region)
    (hs : List (String × String)) (t : Tstamp) :
    awsAuthIamPayloadNew creds rOpt hs t =
      (let regionV := rOpt.getD Region.default
       let hostname := build_hostname "sts" regionV
       let bodyBytes := strBytes ((serdeUrlencodedToString actionParams).getD "")
       let h1 := headerAdd (headerRemove (postHeaderMap hs) "x-amz-date") "x-amz-date"
         (strBytes t.basicFormat)
       let h2 := match creds.token with
         | some tok => headerAdd (headerRemove h1 "x-amz-security-token") "x-amz-security-token"
             (strBytes tok)
         | none => h1
       let digest := hexStr (sha256 bodyBytes)
       let h3 := headerAdd (headerRemove h2 "x-amz-content-sha256") "x-amz-content-sha256"
         (strBytes digest)
       let h4 := headerAdd (headerRemove h3 "host") "host" (strBytes hostname)
       let shdrs := signedHeadersStr h4
       let canonicalRequest := "POST" ++ "\x0a" ++ "/" ++ "\x0a" ++ "" ++ "\x0a" ++
         canonicalHeaders h4 ++ "\x0a" ++ shdrs ++ "\x0a" ++ digest
       let scope := credScope t regionV.name "sts"
       let toSign := stringToSign t (hexStr (sha256 (strBytes canonicalRequest))) scope
       let signature := hexStr (hmacSha256
         (signingKey creds.aws_secret_access_key t.ymd regionV.name "sts") (strBytes toSign))
       let auth := "AWS4-HMAC-SHA256 Credential=" ++ creds.aws_access_key_id ++ "/" ++ scope ++
         ", SignedHeaders=" ++ shdrs ++ ", Signature=" ++ signature
       let h5 := headerAdd (headerRemove h4 "authorization") "authorization" (strBytes auth)
       { iam_http_request_method := "POST",
         iam_request_url := base64Encode (strBytes ("https" ++ "://" ++ hostname ++ "/")),
         iam_request_body := base64Encode bodyBytes,
         iam_request_headers := headersToStrings h5 }) := by
  rcases creds with ⟨ak, sk, tok⟩
  cases tok <;>
  · simp only [awsAuthIamPayloadNew, SignedRequest.sign, foldlAddHeader_eq]
    simp only [SignedRequest.new, SignedRequest.setPayload, SignedRequest.setContentType,
      SignedRequest.addHeader, SignedRequest.replaceHeader, SignedRequest.hostname,
      SignedRequest.scheme, SignedRequest.canonicalPath, postHeaderMap]
    rfl

theorem afterChar_concat (c : Char) (a b : List Char) (h : c ∉ a) :
    afterChar c (a ++ c :: b) = b := by
  induction a with
  | nil => simp [afterChar]
  | cons x a ih =>
    have hx : x ≠ c := fun hx => h (hx ▸ List.mem_cons_self x a)
    have ha : c ∉ a := fun hm => h (List.mem_cons_of_mem x hm)
    show afterChar c (x :: (a ++ c :: b)) = b
    simp only [afterChar]
    rw [if_neg hx, ih ha]

theorem joinAmp_snoc (l : List (List Char)) (x : List Char) (hne : l ≠ []) :
    joinAmp (l ++ [x]) = joinAmp l ++ '&' :: x := by
  cases l with
  | nil => exact absurd rfl hne
  | cons p ps =>
    show joinAmp (p :: (ps ++ [x])) = joinAmp (p :: ps) ++ '&' :: x
    simp [joinAmp, List.flatten_append]

theorem encSeg_amp_free (k v : String) (d : Char)
    (hd : d ∈ percEncodeL k.data ++ '=' :: percEncodeL v.data) : d ≠ '&' := by
  rcases List.mem_append.mp hd with h | h
  · exact (percEncodeL_safe _ d h).1
  · rcases List.mem_cons.mp h with h1 | h1
    · rw [h1]
      decide
    · exact (percEncodeL_safe _ d h1).1

theorem sigKey_amp_free : ∀ d ∈ ("X-Amz-Signature").data, d ≠ '&' := by decide

theorem sigSeg_amp_free (sig : List Nat) (d : Char)
    (hd : d ∈ "X-Amz-Signature".data ++ '=' :: (hexStr sig).data) : d ≠ '&' := by
  rcases List.mem_append.mp hd with h | h
  · exact sigKey_amp_free d h
  · rcases List.mem_cons.mp h with h1 | h1
    · rw [h1]
      decide
    · exact (hexStr_chars sig d h1).1

theorem decodeSeg_enc (k v : String) :
    (fun p => (percDecodeL (splitEq p).1, percDecodeL (splitEq p).2))
        (percEncodeL k.data ++ '=' :: percEncodeL v.data) =
      (percDecodeL (percEncodeL k.data), percDecodeL (percEncodeL v.data)) := by
  have h : '=' ∉ percEncodeL k.data := fun hm => (percEncodeL_safe _ _ hm).2.1 rfl
  simp only [splitEq_append _ _ h]

theorem decodeSeg_sig (sig : List Nat) :
    (percDecodeL (splitEq ("X-Amz-Signature".data ++ '=' :: (hexStr sig).data)).1,
        percDecodeL (splitEq ("X-Amz-Signature".data ++ '=' :: (hexStr sig).data)).2) =
      (strBytes "X-Amz-Signature", (hexStr sig).data.map Char.toNat) := by
  have h : '=' ∉ ("X-Amz-Signature").data := by decide
  rw [splitEq_append _ _ h]
  rw [percDecode_raw ((hexStr sig).data)
    (fun c hc => ⟨(hexStr_chars sig c hc).2.2.2.2, (hexStr_chars sig c hc).2.2.2.1⟩)]
  rw [show percDecodeL ("X-Amz-Signature").data = strBytes "X-Amz-Signature" from by decide]

theorem queryPairsL_url (ps : List (String × String)) (sig : List Nat) :
    queryPairsL (joinAmp ((ps.map fun p => percEncodeL p.1.data ++ '=' :: percEncodeL p.2.data) ++
        ["X-Amz-Signature".data ++ '=' :: (hexStr sig).data])) =
      (ps.map fun p => (percDecodeL (percEncodeL p.1.data), percDecodeL (percEncodeL p.2.data))) ++
        [(strBytes "X-Amz-Signature", (hexStr sig).data.map Char.toNat)] := by
  have hsegs : ((ps.map fun p => percEncodeL p.1.data ++ '=' :: percEncodeL p.2.data) ++
      ["X-Amz-Signature".data ++ '=' :: (hexStr sig).data]) ≠ [] := by
    simp
  have hsafe : ∀ s ∈ ((ps.map fun p => percEncodeL p.1.data ++ '=' :: percEncodeL p.2.data) ++
      ["X-Amz-Signature".data ++ '=' :: (hexStr sig).data]), '&' ∉ s := by
    intro s hs hd
    rcases List.mem_append.mp hs with h | h
    · obtain ⟨p, _, hp⟩ := List.mem_map.mp h
      exact encSeg_amp_free p.1 p.2 '&' (hp ▸ hd) rfl
    · rcases List.mem_cons.mp h with h1 | h1
      · exact sigSeg_amp_free sig '&' (h1 ▸ hd) rfl
      · exact absurd h1 (List.not_mem_nil s)
  unfold queryPairsL
  rw [splitAmp_joinAmp _ hsegs hsafe, List.map_append, List.map_map]
  congr 1
  · apply List.map_congr_left
    intro p _
    exact decodeSeg_enc p.1 p.2
  · rw [List.map_cons, List.map_nil]
    exact congrArg (fun q => [q]) (decodeSeg_sig sig)

theorem afterChar_skip (c : Char) (a b : List Char) (h : c ∉ a) :
    afterChar c (a ++ b) = afterChar c b := by
  induction a with
  | nil => rfl
  | cons x a ih =>
    have hx : x ≠ c := fun hx => h (hx ▸ List.mem_cons_self x a)
    have ha : c ∉ a := fun hm => h (List.mem_cons_of_mem x hm)
    show afterChar c (x :: (a ++ b)) = afterChar c b
    simp only [afterChar]
    rw [if_neg hx, ih ha]

theorem afterChar_here (c : Char) (b : List Char) : afterChar c (c :: b) = b := by
  simp [afterChar]

theorem urlQueryStr_presigned (H : String) (ps : List (String × String)) (S : List Nat)
    (hH : '?' ∉ H.data) (hps : ps ≠ []) :
    urlQueryStr ("https" ++ "://" ++ H ++ "/" ++ "?" ++ buildCanonicalQueryString ps ++
        "&X-Amz-Signature=" ++ hexStr S) =
      joinAmp ((ps.map fun p => percEncodeL p.1.data ++ '=' :: percEncodeL p.2.data) ++
        ["X-Amz-Signature".data ++ '=' :: (hexStr S).data]) := by
  unfold urlQueryStr
  simp only [strData_append, List.append_assoc]
  rw [afterChar_skip _ _ _ (by decide : '?' ∉ ("https").data),
    afterChar_skip _ _ _ (by decide : '?' ∉ ("://").data),
    afterChar_skip _ _ _ hH,
    afterChar_skip _ _ _ (by decide : '?' ∉ ("/").data)]
  simp only [List.singleton_append]
  rw [afterChar_here]
  rw [joinAmp_snoc _ _ (by simpa using hps)]
  rfl

theorem queryPairs_of_presigned (H : String) (ps : List (String × String)) (S : List Nat)
    (hH : '?' ∉ H.data) (hps : ps ≠ []) :
    queryPairsL (urlQueryStr ("https" ++ "://" ++ H ++ "/" ++ "?" ++
        buildCanonicalQueryString ps ++ "&X-Amz-Signature=" ++ hexStr S)) =
      (ps.map fun p => (percDecodeL (percEncodeL p.1.data), percDecodeL (percEncodeL p.2.data))) ++
        [(strBytes "X-Amz-Signature", (hexStr S).data.map Char.toNat)] := by
  rw [urlQueryStr_presigned H ps S hH hps, queryPairsL_url]

theorem asciiStr_all (s : String) (h : asciiStr s = true) : ∀ c ∈ s.data, c.toNat < 128 := by
  intro c hc
  have := List.all_eq_true.mp h c hc
  exact of_decide_eq_true this

theorem percDecode_encode_str (s : String) (h : asciiStr s = true) :
    percDecodeL (percEncodeL s.data) = strBytes s :=
  percDecode_percEncode s.data (asciiStr_all s h)

theorem asciiStr_append (a b : String) (ha : asciiStr a = true) (hb : asciiStr b = true) :
    asciiStr (a ++ b) = true := by
  simp only [asciiStr, strData_append, List.all_append]
  rw [asciiStr] at ha hb
  rw [ha, hb]
  rfl

theorem hostname_no_qm (r : Region) (h : '?' ∉ r.name.data) :
    '?' ∉ (build_hostname "sts" r).data := by
  unfold build_hostname
  intro hm
  split at hm <;>
  · simp only [strData_append, List.mem_append] at hm
    rcases hm with ((h1 | h1) | h1) | h1
    · exact absurd h1 (by decide)
    · exact absurd h1 (by decide)
    · exact h h1
    · exact absurd h1 (by decide)

theorem hexStr_bytes_ne_nil (S : List Nat) (h : S.length = 32) :
    (hexStr S).data.map Char.toNat ≠ [] := by
  cases S with
  | nil => simp at h
  | cons b bs =>
    simp [hexStr_data, hexByte]

theorem strBytes_ne_nil_left (a b : String) (ha : a.data ≠ []) : strBytes (a ++ b) ≠ [] := by
  simp only [strBytes, strData_append, List.map_append, ne_eq, List.append_eq_nil,
    List.map_eq_nil_iff, not_and]
  intro h1
  exact absurd h1 ha

theorem paramPut_ne_nil (ps : List (String × String)) (k v : String) :
    paramPut ps k v ≠ [] := by
  cases ps with
  | nil => simp [paramPut]
  | cons p ps =>
    simp only [paramPut]
    split
    · simp
    · split <;> simp

theorem data_append_ne_nil_right (a b : String) (hb : b.data ≠ []) : (a ++ b).data ≠ [] := by
  rw [strData_append]
  simp only [ne_eq, List.append_eq_nil]
  intro h
  exact hb h.2

theorem strBytes_ne_nil (s : String) (h : s.data ≠ []) : strBytes s ≠ [] := by
  simp only [strBytes, ne_eq, List.map_eq_nil_iff]
  exact h

theorem asciiStr_credScope (t : Tstamp) (rn sv : String) (hrn : asciiStr rn = true)
    (hsv : asciiStr sv = true) (hymd : asciiStr t.ymd = true) :
    asciiStr (credScope t rn sv) = true := by
  unfold credScope
  exact asciiStr_append _ _
    (asciiStr_append _ _
      (asciiStr_append _ _
        (asciiStr_append _ _
          (asciiStr_append _ _ hymd (by decide))
          hrn)
        (by decide))
      hsv)
    (by decide)

theorem asciiStr_basicFormat (t : Tstamp) (hymd : asciiStr t.ymd = true)
    (hhms : asciiStr t.hms = true) : asciiStr t.basicFormat = true := by
  unfold Tstamp.basicFormat
  exact asciiStr_append _ _ (asciiStr_append _ _ (asciiStr_append _ _ hymd (by decide)) hhms)
    (by decide)

/-- Credentials as supplied by `rusoto_mock::MockCredentialsProvider`, used by
the crate's own tests. -/
def mockCredentials : AwsCredentials :=
  { aws_access_key_id := "mock_key", aws_secret_access_key := "mock_secret", token := none }

/-- A sample signing timestamp. -/
def mockTime : Tstamp := { ymd := "20261012", hms := "142233" }

/-- The Vault scenario of the crate's tests: region `us-east-1` and the single
additional header `X-Vault-AWS-IAM-Server-ID=vault.example.com`. -/
def vaultPayload (creds : AwsCredentials) (t : Tstamp) : AwsAuthIamPayload :=
  awsAuthIamPayloadNew creds (some { name := "us-east-1" })
    [("X-Vault-AWS-IAM-Server-ID", "vault.example.com")] t

/-- The Kubernetes scenario of the crate's tests: region `us-east-1`, the
single additional header `X-K8S-AWS-ID=example`, default expiry. -/
def presignedUrlK8s (creds : AwsCredentials) (t : Tstamp) : String :=
  presigned_url creds (some { name := "us-east-1" }) [("X-K8S-AWS-ID", "example")] none t

/-- The parsed, percent-decoded query pairs of a produced pre-signed URL. -/
def presignedQP (creds : AwsCredentials) (rOpt : Option Region)
    (hs : List (String × String)) (e : Option Nat) (t : Tstamp) :
    List (List Nat × List Nat) :=
  queryPairsL (urlQueryStr (presigned_url creds rOpt hs e t))

set_option maxHeartbeats 1000000 in
/-- C1: for any credentials and timestamp, with region `us-east-1` and the
single additional header `X-Vault-AWS-IAM-Server-ID=vault.example.com`,
`AwsAuthIamPayload::new` returns a payload whose `iam_http_request_method` is
`"POST"`, whose `iam_request_url` base64-decodes to
`https://sts.us-east-1.amazonaws.com/`, whose `iam_request_body`
base64-decodes to `Action=GetCallerIdentity&Version=2011-06-15`, and whose
`iam_request_headers` contain a lower-cased `authorization` key and the key
`x-vault-aws-iam-server-id` mapped to the original value
`vault.example.com`. -/
theorem post_payload_shape_us_east_1 (creds : AwsCredentials) (t : Tstamp) :
    (vaultPayload creds t).iam_http_request_method = "POST" ∧
    base64Decode (vaultPayload creds t).iam_request_url =
      strBytes "https://sts.us-east-1.amazonaws.com/" ∧
    base64Decode (vaultPayload creds t).iam_request_body =
      strBytes "Action=GetCallerIdentity&Version=2011-06-15" ∧
    (hlookup "authorization" (vaultPayload creds t).iam_request_headers).isSome = true ∧
    hlookup "x-vault-aws-iam-server-id" (vaultPayload creds t).iam_request_headers =
      some ["vault.example.com"] := by
  obtain ⟨ak, sk, tok⟩ := creds
  cases tok <;> exact ⟨rfl, rfl, rfl, rfl, rfl⟩

set_option maxHeartbeats 1000000 in
/-- C2: for any credentials (ASCII access key) and timestamp, with region
`us-east-1`, the single additional header `X-K8S-AWS-ID=example` and default
expiry, `presigned_url` returns a URL whose host is
`sts.us-east-1.amazonaws.com` and whose query parameters contain
`Action=GetCallerIdentity`, `Version=2011-06-15`,
`X-Amz-SignedHeaders=host;x-k8s-aws-id`, `X-Amz-Expires=60`,
`X-Amz-Algorithm=AWS4-HMAC-SHA256`, and non-empty values for
`X-Amz-Signature`, `X-Amz-Credential` and `X-Amz-Date`. -/
theorem presigned_url_shape_k8s (creds : AwsCredentials) (t : Tstamp)
    (hak : asciiStr creds.aws_access_key_id = true)
    (hymd : asciiStr t.ymd = true) (hhms : asciiStr t.hms = true) :
    urlHost (presignedUrlK8s creds t) = "sts.us-east-1.amazonaws.com" ∧
    qlookup (strBytes "Action") (queryPairsL (urlQueryStr (presignedUrlK8s creds t))) =
      some (strBytes "GetCallerIdentity") ∧
    qlookup (strBytes "Version") (queryPairsL (urlQueryStr (presignedUrlK8s creds t))) =
      some (strBytes "2011-06-15") ∧
    qlookup (strBytes "X-Amz-SignedHeaders") (queryPairsL (urlQueryStr (presignedUrlK8s creds t))) =
      some (strBytes "host;x-k8s-aws-id") ∧
    qlookup (strBytes "X-Amz-Expires") (queryPairsL (urlQueryStr (presignedUrlK8s creds t))) =
      some (strBytes "60") ∧
    qlookup (strBytes "X-Amz-Algorithm") (queryPairsL (urlQueryStr (presignedUrlK8s creds t))) =
      some (strBytes "AWS4-HMAC-SHA256") ∧
    (∃ v, qlookup (strBytes "X-Amz-Signature") (queryPairsL (urlQueryStr (presignedUrlK8s creds t))) =
      some v ∧ v ≠ []) ∧
    (∃ v, qlookup (strBytes "X-Amz-Credential") (queryPairsL (urlQueryStr (presignedUrlK8s creds t))) =
      some v ∧ v ≠ []) ∧
    (∃ v, qlookup (strBytes "X-Amz-Date") (queryPairsL (urlQueryStr (presignedUrlK8s creds t))) =
      some v ∧ v ≠ []) := by
  obtain ⟨ak, sk, tok⟩ := creds
  have hascii : asciiStr (ak ++ "/" ++
      credScope t ((some (Region.mk "us-east-1")).getD Region.default).name "sts") = true :=
    asciiStr_append _ _ (asciiStr_append _ _ hak (by decide))
      (asciiStr_credScope t _ _ (by decide) (by decide) hymd)
  cases tok <;>
  · simp only [presignedUrlK8s, presigned_url_eq]
    rw [queryPairs_of_presigned _ _ _ (by decide) (paramPut_ne_nil _ _ _)]
    refine ⟨rfl, rfl, rfl, rfl, rfl, rfl, ?_, ?_, ?_⟩
    · exact ⟨_, rfl, hexStr_bytes_ne_nil _ (hmacSha256_length _ _)⟩
    · refine ⟨_, rfl, ?_⟩
      show percDecodeL (percEncodeL ((ak ++ "/" ++
        credScope t ((some (Region.mk "us-east-1")).getD Region.default).name "sts")).data) ≠ []
      rw [percDecode_encode_str _ hascii]
      exact strBytes_ne_nil _
        (data_append_ne_nil_right _ _ (data_append_ne_nil_right _ _ (by decide)))
    · refine ⟨_, rfl, ?_⟩
      show percDecodeL (percEncodeL ((t.basicFormat)).data) ≠ []
      rw [percDecode_encode_str _ (asciiStr_basicFormat t hymd hhms)]
      exact strBytes_ne_nil _ (data_append_ne_nil_right _ _ (by decide))

/-- Witness for C2 at the crate's own mock credentials. -/
theorem presigned_url_shape_k8s_witness :
    urlHost (presignedUrlK8s mockCredentials mockTime) = "sts.us-east-1.amazonaws.com" ∧
    qlookup (strBytes "Action")
        (queryPairsL (urlQueryStr (presignedUrlK8s mockCredentials mockTime))) =
      some (strBytes "GetCallerIdentity") ∧
    qlookup (strBytes "Version")
        (queryPairsL (urlQueryStr (presignedUrlK8s mockCredentials mockTime))) =
      some (strBytes "2011-06-15") ∧
    qlookup (strBytes "X-Amz-SignedHeaders")
        (queryPairsL (urlQueryStr (presignedUrlK8s mockCredentials mockTime))) =
      some (strBytes "host;x-k8s-aws-id") ∧
    qlookup (strBytes "X-Amz-Expires")
        (queryPairsL (urlQueryStr (presignedUrlK8s mockCredentials mockTime))) =
      some (strBytes "60") ∧
    qlookup (strBytes "X-Amz-Algorithm")
        (queryPairsL (urlQueryStr (presignedUrlK8s mockCredentials mockTime))) =
      some (strBytes "AWS4-HMAC-SHA256") ∧
    (∃ v, qlookup (strBytes "X-Amz-Signature")
        (queryPairsL (urlQueryStr (presignedUrlK8s mockCredentials mockTime))) =
      some v ∧ v ≠ []) ∧
    (∃ v, qlookup (strBytes "X-Amz-Credential")
        (queryPairsL (urlQueryStr (presignedUrlK8s mockCredentials mockTime))) =
      some v ∧ v ≠ []) ∧
    (∃ v, qlookup (strBytes "X-Amz-Date")
        (queryPairsL (urlQueryStr (presignedUrlK8s mockCredentials mockTime))) =
      some v ∧ v ≠ []) :=
  presigned_url_shape_k8s mockCredentials mockTime (by decide) (by decide) (by decide)

set_option maxHeartbeats 1000000 in
/-- C3 (evaluation of the code at the failing input): when the `region`
argument is omitted, both constructors resolve the hostname through
`unwrap_or_default` (`client.rs:50-53`, `client.rs:138-141`) to the default
region `us-east-1` and thus to the regional endpoint
`sts.us-east-1.amazonaws.com` — not the global `sts.amazonaws.com` promised
by the crate's doc comment (`client.rs:40`) and the spec. -/
theorem region_default_resolves_regional (creds : AwsCredentials)
    (hs : List (String × String)) (e : Option Nat) (t : Tstamp) :
    urlHost (presigned_url creds none hs e t) = "sts.us-east-1.amazonaws.com" ∧
    base64Decode (awsAuthIamPayloadNew creds none hs t).iam_request_url =
      strBytes "https://sts.us-east-1.amazonaws.com/" ∧
    urlHost (presigned_url creds none hs e t) ≠ "sts.amazonaws.com" := by
  have h1 : urlHost (presigned_url creds none hs e t) = "sts.us-east-1.amazonaws.com" := by
    simp only [presigned_url_eq]
    rfl
  refine ⟨h1, ?_, ?_⟩
  · simp only [awsAuthIamPayloadNew_eq]
    rfl
  · rw [h1]
    decide

/-- C4 (evaluation of the code at the failing input): the header conversion of
`client.rs:88-100` has no error path — it is total, and a header value whose
bytes are not valid UTF-8 (here the single byte `0xFF`) is neither rejected
nor dropped nor truncated: `String::from_utf8_unchecked` passes it through
unvalidated into `iam_request_headers`. -/
theorem header_bytes_unchecked_conversion :
    headersToStrings [("x-test-header", [[255]])] =
      [("x-test-header", [fromUtf8Unchecked [255]])] ∧
    (fromUtf8Unchecked [255]).data.map Char.toNat = [255] ∧
    fromUtf8Unchecked [255] ≠ "" := ⟨rfl, by decide, by decide⟩

/-- C5: signing is a pure function of its inputs — for fixed credentials,
region, additional headers, expiry and timestamp, two invocations of
`AwsAuthIamPayload::new` or of `presigned_url` produce identical output. -/
theorem signing_deterministic (c1 c2 : AwsCredentials) (r1 r2 : Option Region)
    (h1 h2 : List (String × String)) (e1 e2 : Option Nat) (t1 t2 : Tstamp)
    (hc : c1 = c2) (hr : r1 = r2) (hh : h1 = h2) (he : e1 = e2) (ht : t1 = t2) :
    awsAuthIamPayloadNew c1 r1 h1 t1 = awsAuthIamPayloadNew c2 r2 h2 t2 ∧
    presigned_url c1 r1 h1 e1 t1 = presigned_url c2 r2 h2 e2 t2 := by
  subst hc
  subst hr
  subst hh
  subst he
  subst ht
  exact ⟨rfl, rfl⟩

/-- Witness for C5 at concrete inputs. -/
theorem signing_deterministic_witness :
    awsAuthIamPayloadNew mockCredentials (some { name := "us-east-1" }) [] mockTime =
      awsAuthIamPayloadNew mockCredentials (some { name := "us-east-1" }) [] mockTime ∧
    presigned_url mockCredentials (some { name := "us-east-1" }) [] none mockTime =
      presigned_url mockCredentials (some { name := "us-east-1" }) [] none mockTime :=
  signing_deterministic mockCredentials mockCredentials (some { name := "us-east-1" })
    (some { name := "us-east-1" }) [] [] none none mockTime mockTime rfl rfl rfl rfl rfl

set_option maxHeartbeats 1000000 in
/-- C6: when `expires_in` is `None`, `presigned_url` uses the crate's
`DEFAULT_EXPIRES` of 60 seconds, so the produced URL carries
`X-Amz-Expires=60`. -/
theorem default_expiry_sixty (creds : AwsCredentials) (rOpt : Option Region)
    (hs : List (String × String)) (t : Tstamp)
    (hq : '?' ∉ (rOpt.getD Region.default).name.data) :
    qlookup (strBytes "X-Amz-Expires") (presignedQP creds rOpt hs none t) =
      some (strBytes "60") := by
  obtain ⟨ak, sk, tok⟩ := creds
  cases tok <;>
  · simp only [presignedQP, presigned_url_eq]
    rw [queryPairs_of_presigned _ _ _ (hostname_no_qm _ hq) (paramPut_ne_nil _ _ _)]
    rfl

/-- Witness for C6 at concrete inputs. -/
theorem default_expiry_sixty_witness :
    qlookup (strBytes "X-Amz-Expires") (presignedQP mockCredentials none [] none mockTime) =
      some (strBytes "60") :=
  default_expiry_sixty mockCredentials none [] mockTime (by decide)

theorem presignedParamsNF_none (cred expv shdrs basic : String) :
    paramPut (paramPut (paramPut (paramPut (paramPut actionParams
      "X-Amz-Algorithm" "AWS4-HMAC-SHA256") "X-Amz-Credential" cred) "X-Amz-Expires" expv)
      "X-Amz-SignedHeaders" shdrs) "X-Amz-Date" basic =
    [("Action", "GetCallerIdentity"), ("Version", "2011-06-15"),
     ("X-Amz-Algorithm", "AWS4-HMAC-SHA256"), ("X-Amz-Credential", cred),
     ("X-Amz-Date", basic), ("X-Amz-Expires", expv), ("X-Amz-SignedHeaders", shdrs)] := rfl

theorem presignedParamsNF_some (tok cred expv shdrs basic : String) :
    paramPut (paramPut (paramPut (paramPut (paramPut
      (paramPut actionParams "X-Amz-Security-Token" tok)
      "X-Amz-Algorithm" "AWS4-HMAC-SHA256") "X-Amz-Credential" cred) "X-Amz-Expires" expv)
      "X-Amz-SignedHeaders" shdrs) "X-Amz-Date" basic =
    [("Action", "GetCallerIdentity"), ("Version", "2011-06-15"),
     ("X-Amz-Algorithm", "AWS4-HMAC-SHA256"), ("X-Amz-Credential", cred),
     ("X-Amz-Date", basic), ("X-Amz-Expires", expv), ("X-Amz-Security-Token", tok),
     ("X-Amz-SignedHeaders", shdrs)] := rfl

set_option maxHeartbeats 1000000 in
/-- C7: for fixed credentials, region, additional headers and timestamp,
varying only `expires_in` changes the `X-Amz-Expires` query parameter
accordingly and leaves the rest of the query structurally unchanged — the two
URLs' query-pair lists share the same prefix and the same middle segment
(every other parameter, with identical names, order and values), differing
only in the `X-Amz-Expires` value and the recomputed `X-Amz-Signature`
value. -/
theorem expires_frame_property (creds : AwsCredentials) (rOpt : Option Region)
    (hs : List (String × String)) (t : Tstamp) (e1 e2 : Nat)
    (hq : '?' ∉ (rOpt.getD Region.default).name.data)
    (he1 : asciiStr (toString e1) = true) (he2 : asciiStr (toString e2) = true) :
    ∃ pre suf v1 v2,
      presignedQP creds rOpt hs (some e1) t =
        pre ++ (strBytes "X-Amz-Expires", strBytes (toString e1)) :: suf ++
          [(strBytes "X-Amz-Signature", v1)] ∧
      presignedQP creds rOpt hs (some e2) t =
        pre ++ (strBytes "X-Amz-Expires", strBytes (toString e2)) :: suf ++
          [(strBytes "X-Amz-Signature", v2)] ∧
      pre.map Prod.fst = [strBytes "Action", strBytes "Version", strBytes "X-Amz-Algorithm",
        strBytes "X-Amz-Credential", strBytes "X-Amz-Date"] := by
  obtain ⟨ak, sk, tok⟩ := creds
  cases tok with
  | none =>
    simp only [presignedQP, presigned_url_eq, Option.getD_some]
    rw [queryPairs_of_presigned _ _ _ (hostname_no_qm _ hq) (paramPut_ne_nil _ _ _),
      queryPairs_of_presigned _ _ _ (hostname_no_qm _ hq) (paramPut_ne_nil _ _ _)]
    simp only [presignedParamsNF_none, List.map_cons, List.map_nil]
    rw [percDecode_encode_str _ he1, percDecode_encode_str _ he2]
    exact ⟨[(strBytes "Action", strBytes "GetCallerIdentity"),
      (strBytes "Version", strBytes "2011-06-15"),
      (strBytes "X-Amz-Algorithm", strBytes "AWS4-HMAC-SHA256"),
      (strBytes "X-Amz-Credential", percDecodeL (percEncodeL
        (ak ++ "/" ++ credScope t (rOpt.getD Region.default).name "sts").data)),
      (strBytes "X-Amz-Date", percDecodeL (percEncodeL (t.basicFormat).data))],
      [(strBytes "X-Amz-SignedHeaders", percDecodeL (percEncodeL
        (signedHeadersStr (presignedHeaderMap hs
          (build_hostname "sts" (rOpt.getD Region.default)))).data))], _, _, rfl, rfl, rfl⟩
  | some tk =>
    simp only [presignedQP, presigned_url_eq, Option.getD_some]
    rw [queryPairs_of_presigned _ _ _ (hostname_no_qm _ hq) (paramPut_ne_nil _ _ _),
      queryPairs_of_presigned _ _ _ (hostname_no_qm _ hq) (paramPut_ne_nil _ _ _)]
    simp only [presignedParamsNF_some, List.map_cons, List.map_nil]
    rw [percDecode_encode_str _ he1, percDecode_encode_str _ he2]
    exact ⟨[(strBytes "Action", strBytes "GetCallerIdentity"),
      (strBytes "Version", strBytes "2011-06-15"),
      (strBytes "X-Amz-Algorithm", strBytes "AWS4-HMAC-SHA256"),
      (strBytes "X-Amz-Credential", percDecodeL (percEncodeL
        (ak ++ "/" ++ credScope t (rOpt.getD Region.default).name "sts").data)),
      (strBytes "X-Amz-Date", percDecodeL (percEncodeL (t.basicFormat).data))],
      [(strBytes "X-Amz-Security-Token", percDecodeL (percEncodeL tk.data)),
       (strBytes "X-Amz-SignedHeaders", percDecodeL (percEncodeL
        (signedHeadersStr (presignedHeaderMap hs
          (build_hostname "sts" (rOpt.getD Region.default)))).data))], _, _, rfl, rfl, rfl⟩

/-- Witness for C7 at concrete inputs. -/
theorem expires_frame_property_witness :
    ∃ pre suf v1 v2,
      presignedQP mockCredentials none [] (some 60) mockTime =
        pre ++ (strBytes "X-Amz-Expires", strBytes (toString 60)) :: suf ++
          [(strBytes "X-Amz-Signature", v1)] ∧
      presignedQP mockCredentials none [] (some 300) mockTime =
        pre ++ (strBytes "X-Amz-Expires", strBytes (toString 300)) :: suf ++
          [(strBytes "X-Amz-Signature", v2)] ∧
      pre.map Prod.fst = [strBytes "Action", strBytes "Version", strBytes "X-Amz-Algorithm",
        strBytes "X-Amz-Credential", strBytes "X-Amz-Date"] :=
  expires_frame_property mockCredentials none [] mockTime 60 300
    (by decide) (by decide) (by decide)

set_option maxHeartbeats 1000000 in
/-- C8: for every credentials, region, additional headers, expiry and
timestamp, `Action=GetCallerIdentity` and `Version=2011-06-15` are present in
the produced artifact — in the query string of the pre-signed URL and in the
form body of the POST payload — and no caller input can override or omit
them. -/
theorem fixed_action_version_invariant (creds : AwsCredentials) (rOpt : Option Region)
    (hs : List (String × String)) (e : Option Nat) (t : Tstamp)
    (hq : '?' ∉ (rOpt.getD Region.default).name.data) :
    qlookup (strBytes "Action") (presignedQP creds rOpt hs e t) =
      some (strBytes "GetCallerIdentity") ∧
    qlookup (strBytes "Version") (presignedQP creds rOpt hs e t) =
      some (strBytes "2011-06-15") ∧
    (awsAuthIamPayloadNew creds rOpt hs t).iam_request_body =
      base64Encode (strBytes "Action=GetCallerIdentity&Version=2011-06-15") := by
  have hbody : (awsAuthIamPayloadNew creds rOpt hs t).iam_request_body =
      base64Encode (strBytes "Action=GetCallerIdentity&Version=2011-06-15") := by
    simp only [awsAuthIamPayloadNew_eq]
    rfl
  obtain ⟨ak, sk, tok⟩ := creds
  cases tok <;>
  · simp only [presignedQP, presigned_url_eq]
    rw [queryPairs_of_presigned _ _ _ (hostname_no_qm _ hq) (paramPut_ne_nil _ _ _)]
    exact ⟨rfl, rfl, hbody⟩

/-- Witness for C8 at concrete inputs. -/
theorem fixed_action_version_invariant_witness :
    qlookup (strBytes "Action") (presignedQP mockCredentials none [("X-Test", "x")]
      (some 120) mockTime) = some (strBytes "GetCallerIdentity") ∧
    qlookup (strBytes "Version") (presignedQP mockCredentials none [("X-Test", "x")]
      (some 120) mockTime) = some (strBytes "2011-06-15") ∧
    (awsAuthIamPayloadNew mockCredentials none [("X-Test", "x")] mockTime).iam_request_body =
      base64Encode (strBytes "Action=GetCallerIdentity&Version=2011-06-15") :=
  fixed_action_version_invariant mockCredentials none [("X-Test", "x")] (some 120) mockTime
    (by decide)

/-- C9: given well-formed inputs the constructors have no fallible runtime
path: with the two partial operations made explicit — the `unwrap` of the
urlencoded serialization and the payload-extraction `match` whose other arm
is `unreachable!` — construction always succeeds and returns exactly the
payload of the total function. -/
theorem no_fallible_runtime_path (creds : AwsCredentials) (rOpt : Option Region)
    (hs : List (String × String)) (t : Tstamp) :
    awsAuthIamPayloadNewChecked creds rOpt hs t = some (awsAuthIamPayloadNew creds rOpt hs t) := by
  obtain ⟨ak, sk, tok⟩ := creds
  cases tok <;>
  · simp only [awsAuthIamPayloadNewChecked, awsAuthIamPayloadNew, foldlAddHeader_eq]
    rfl

/-- C10: for every credentials, region, additional headers and timestamp, the
`iam_request_body` field equals the base64 encoding of the fixed string
`Action=GetCallerIdentity&Version=2011-06-15` — a constant independent of all
inputs, because the parameter map holds exactly those two sorted entries. -/
theorem request_body_constant (creds : AwsCredentials) (rOpt : Option Region)
    (hs : List (String × String)) (t : Tstamp) :
    (awsAuthIamPayloadNew creds rOpt hs t).iam_request_body =
      base64Encode (strBytes "Action=GetCallerIdentity&Version=2011-06-15") := by
  simp only [awsAuthIamPayloadNew_eq]
  rfl
